import Mathlib

/-!
Verification of the curve-geometry and edge-reconstruction core of
`graphviz2drawio` (files `mx/Curve.py`, `mx/EdgeFactory.py`, `mx/GraphObj.py`,
`models/SVG.py`) against its natural-language specification.

Modelling conventions:
* Python `complex` points become `Pt := ℚ × ℚ` (the source only ever uses
  componentwise addition and real-scalar combinations, never complex
  multiplication, so a pair with componentwise arithmetic is an exact model;
  floats are modelled as exact rationals).
* Python `str` values that the code computes on become `Str := List Char`;
  `str.replace`/`str.split` are embedded as executable recursive functions
  with Python's left-to-right, non-overlapping semantics.
* Fallible code returns `Option`/`Except`; a raised Python exception is an
  `Except.error` / `none` value.
-/

/-- 2D point, modelling Python `complex` (`.1` = real part, `.2` = imag part). -/
abbrev Pt : Type := ℚ × ℚ

/-- Python `str` modelled as a list of characters. -/
abbrev Str : Type := List Char

/-- Embeds `Curve.__init__` (`mx/Curve.py`): the constructor binds exactly the
four attributes `start`, `end`, `is_bezier`, `points`, verbatim from its
arguments, with no validation.  (`end` is a Lean keyword, hence `end_`.) -/
structure Curve where
  start : Pt
  end_ : Pt
  is_bezier : Bool
  points : List Pt
deriving DecidableEq

/-- Embeds the attribute access `self.cb` performed by `Curve._cb`
(`mx/Curve.py` line 65: `[getattr(x, prop) for x in self.cb]`).
`Curve.__init__` never assigns an attribute named `cb` (it assigns `points`),
and no other method of the class assigns it, so on every `Curve` the lookup
`self.cb` raises `AttributeError`; the method therefore never returns a list,
modelled as `none`. -/
def Curve._cb (_c : Curve) (_prop : String) : Option (List ℚ) :=
  none

/-- Embeds `Curve._cubic_bezier` (`mx/Curve.py`).  Its parameter `p` is
documented and annotated as `p: list` (an ordered list of 4 control points),
but the body reads `p.real` and `p.imag`; a Python `list` has no attribute
`real` (nor `imag`), so the function raises `AttributeError` on every list
argument, modelled as `none`. -/
def Curve._cubic_bezier (_p : List ℚ) (_t : ℚ) : Option ℚ :=
  none

/-- Embeds `Curve.cubic_bezier_coordinates` (`mx/Curve.py`):
`x = Curve._cubic_bezier(self._cb("real"), t)`,
`y = Curve._cubic_bezier(self._cb("imag"), t)`, `return complex(x, y)`,
with each raised `AttributeError` propagating as `none`. -/
def Curve.cubic_bezier_coordinates (c : Curve) (t : ℚ) : Option Pt :=
  match c._cb "real" with
  | none => none
  | some pr =>
    match Curve._cubic_bezier pr t with
    | none => none
    | some x =>
      match c._cb "imag" with
      | none => none
      | some pi =>
        match Curve._cubic_bezier pi t with
        | none => none
        | some y => some (x, y)

/-- Modelled from the spec: the evaluation `position(t)` of a cubic Bézier
with control points P0..P3, `B(t) = (1-t)^3 P0 + 3 (1-t)^2 t P1 +
3 (1-t) t^2 P2 + t^3 P3`, computed per axis.  The source's own evaluator
`Curve.cubic_bezier_coordinates` always raises `AttributeError` (see
`Curve._cb`), so the spec formula is stated separately for comparison. -/
def position (p0 p1 p2 p3 : Pt) (t : ℚ) : Pt :=
  ((1 - t) ^ 3 * p0.1 + 3 * (1 - t) ^ 2 * t * p1.1
      + 3 * (1 - t) * t ^ 2 * p2.1 + t ^ 3 * p3.1,
   (1 - t) ^ 3 * p0.2 + 3 * (1 - t) ^ 2 * t * p1.2
      + 3 * (1 - t) * t ^ 2 * p2.2 + t ^ 3 * p3.2)

/-- Modelled from the spec: `lerp(A, B, t)`, linear interpolation between two
points, used by the spec's de Casteljau description of subdivision. -/
def lerp (a b : Pt) (t : ℚ) : Pt :=
  ((1 - t) * a.1 + t * b.1, (1 - t) * a.2 + t * b.2)

/-- Modelled from the spec: the second-level de Casteljau point
`lerp²(P0,P1,P2,t) = lerp(lerp(P0,P1,t), lerp(P1,P2,t), t)`. -/
def deCasteljau2 (a b c : Pt) (t : ℚ) : Pt :=
  lerp (lerp a b t) (lerp b c t) t

/-- Embeds `_lower_cubic_bezier_to_two_quadratics` (`mx/Curve.py`): computes
`Q0 = P0`, `Q1`, `Q2`, `Q3` per axis exactly as the source and returns the
pair of three-point lists `([Q0, Q1, Q2], [Q2, Q3, P3])`. -/
def _lower_cubic_bezier_to_two_quadratics (P0 P1 P2 P3 : Pt) (t : ℚ) :
    List Pt × List Pt :=
  let Q0 := P0
  let Q1 : Pt := ((1 - t) * P0.1 + t * P1.1, (1 - t) * P0.2 + t * P1.2)
  let Q2 : Pt :=
    ((1 - t) ^ 2 * P0.1 + 2 * (1 - t) * t * P1.1 + t ^ 2 * P2.1,
     (1 - t) ^ 2 * P0.2 + 2 * (1 - t) * t * P1.2 + t ^ 2 * P2.2)
  let Q3 : Pt :=
    ((1 - t) ^ 3 * P0.1 + 3 * (1 - t) ^ 2 * t * P1.1
        + 3 * (1 - t) * t ^ 2 * P2.1 + t ^ 3 * P3.1,
     (1 - t) ^ 3 * P0.2 + 3 * (1 - t) ^ 2 * t * P1.2
        + 3 * (1 - t) * t ^ 2 * P2.2 + t ^ 3 * P3.2)
  ([Q0, Q1, Q2], [Q2, Q3, P3])

/-- Claim C1 (code_bug): the claim states that for every Bézier `Curve`,
`cubic_bezier_coordinates 0` returns `start` and `cubic_bezier_coordinates 1`
returns `end`.  The spec formula indeed satisfies `B(0) = P0` and
`B(1) = P3` (second conjunct), but the source's evaluator raises
`AttributeError` on every input — `Curve.__init__` never binds `self.cb`, and
`_cubic_bezier` reads `.real`/`.imag` from a list — so it returns a point for
no curve and no `t` at all (first conjunct). -/
theorem C1_position_endpoints_code_bug :
    (∀ (c : Curve) (t : ℚ), c.cubic_bezier_coordinates t = none) ∧
    (∀ p0 p1 p2 p3 : Pt,
      position p0 p1 p2 p3 0 = p0 ∧ position p0 p1 p2 p3 1 = p3) := by
  constructor
  · intro c t
    rfl
  · intro p0 p1 p2 p3
    constructor
    · show ((_ : ℚ), (_ : ℚ)) = p0
      have h1 : (1 - (0:ℚ)) ^ 3 * p0.1 + 3 * (1 - 0) ^ 2 * 0 * p1.1
          + 3 * (1 - 0) * 0 ^ 2 * p2.1 + 0 ^ 3 * p3.1 = p0.1 := by ring
      have h2 : (1 - (0:ℚ)) ^ 3 * p0.2 + 3 * (1 - 0) ^ 2 * 0 * p1.2
          + 3 * (1 - 0) * 0 ^ 2 * p2.2 + 0 ^ 3 * p3.2 = p0.2 := by ring
      exact Prod.ext h1 h2
    · have h1 : (1 - (1:ℚ)) ^ 3 * p0.1 + 3 * (1 - 1) ^ 2 * 1 * p1.1
          + 3 * (1 - 1) * 1 ^ 2 * p2.1 + 1 ^ 3 * p3.1 = p3.1 := by ring
      have h2 : (1 - (1:ℚ)) ^ 3 * p0.2 + 3 * (1 - 1) ^ 2 * 1 * p1.2
          + 3 * (1 - 1) * 1 ^ 2 * p2.2 + 1 ^ 3 * p3.2 = p3.2 := by ring
      exact Prod.ext h1 h2

/-- Claim C2, counterexample to the claim as stated: at
`P0 = P1 = P2 = (0,0)`, `P3 = (8,0)`, `t = 1/2`, the two returned segments
are three-point (quadratic) lists, and the point they share — the head of the
second segment — is `(0,0)`, which differs from `position(1/2) = (1,0)` of
the original cubic.  So the shared point is not the subdivision point and the
concatenated halves do not reproduce the original curve at the junction. -/
theorem C2_subdivision_counterexample :
    ((_lower_cubic_bezier_to_two_quadratics (0,0) (0,0) (0,0) (8,0)
        (1/2)).1.length = 3) ∧
    ((_lower_cubic_bezier_to_two_quadratics (0,0) (0,0) (0,0) (8,0)
        (1/2)).2.headD (0,0) ≠
      position (0,0) (0,0) (0,0) (8,0) (1/2)) := by
  constructor
  · rfl
  · intro h
    have h1 := congrArg Prod.fst h
    norm_num [_lower_cubic_bezier_to_two_quadratics, position] at h1

/-- Claim C2, amended: the routine splits the cubic at `t` into two
*quadratic* (three-control-point) segments, `[P0, lerp(P0,P1,t), L2]` and
`[L2, B(t), P3]`, where `L2 = lerp²(P0,P1,P2,t)` is the second-level
de Casteljau point and `B(t) = position(t)` is the subdivision point.  The two
segments share `L2` (not the subdivision point); the subdivision point
`position(t)` appears as the middle control point of the second segment, and
the original endpoints `P0`, `P3` are preserved. -/
theorem C2_subdivision_amended (P0 P1 P2 P3 : Pt) (t : ℚ) :
    _lower_cubic_bezier_to_two_quadratics P0 P1 P2 P3 t =
      ([P0, lerp P0 P1 t, deCasteljau2 P0 P1 P2 t],
       [deCasteljau2 P0 P1 P2 t, position P0 P1 P2 P3 t, P3]) := by
  have hl : lerp P0 P1 t = ((1 - t) * P0.1 + t * P1.1, (1 - t) * P0.2 + t * P1.2) := rfl
  have hd : deCasteljau2 P0 P1 P2 t =
      ((1 - t) ^ 2 * P0.1 + 2 * (1 - t) * t * P1.1 + t ^ 2 * P2.1,
       (1 - t) ^ 2 * P0.2 + 2 * (1 - t) * t * P1.2 + t ^ 2 * P2.2) := by
    apply Prod.ext <;> simp [deCasteljau2, lerp] <;> ring
  simp only [_lower_cubic_bezier_to_two_quadratics, hl, hd, position]

/-- Claim C2 amended, witness at a concrete input. -/
theorem C2_subdivision_amended_witness :
    _lower_cubic_bezier_to_two_quadratics (0,0) (1,1) (2,0) (3,1) (1/2) =
      ([(0,0), lerp (0,0) (1,1) (1/2), deCasteljau2 (0,0) (1,1) (2,0) (1/2)],
       [deCasteljau2 (0,0) (1,1) (2,0) (1/2),
        position (0,0) (1,1) (2,0) (3,1) (1/2), (3,1)]) :=
  C2_subdivision_amended (0,0) (1,1) (2,0) (3,1) (1/2)

/-- Claim C9, counterexample to the claim as stated: `Curve.__init__` performs
no validation, so a `Curve` with `is_bezier = true` whose `start` differs from
`points[0]` (and whose `end` differs from `points[-1]`) is constructible. -/
theorem C9_invariant_counterexample :
    (Curve.mk (0,0) (1,1) true [(5,5),(6,6),(7,7),(8,8)]).is_bezier = true ∧
    ¬((Curve.mk (0,0) (1,1) true [(5,5),(6,6),(7,7),(8,8)]).points.headD (0,0) =
        (Curve.mk (0,0) (1,1) true [(5,5),(6,6),(7,7),(8,8)]).start ∧
      (Curve.mk (0,0) (1,1) true [(5,5),(6,6),(7,7),(8,8)]).points.getLastD (0,0) =
        (Curve.mk (0,0) (1,1) true [(5,5),(6,6),(7,7),(8,8)]).end_) := by
  refine ⟨rfl, ?_⟩
  rintro ⟨h, -⟩
  have h1 := congrArg Prod.fst h
  norm_num at h1

/-- Claim C9, amended: the constructor stores its arguments verbatim and does
not enforce the invariant; a Bézier `Curve` satisfies
`start = points[0]` and `end = points[-1]` exactly when it is constructed
from a points list whose first element is `start` and whose last element is
`end` (as the point-parsing collaborator is specified to do). -/
theorem C9_invariant_amended (s e : Pt) (b : Bool) (pts : List Pt)
    (h1 : pts.head? = some s) (h2 : pts.getLast? = some e) :
    (Curve.mk s e b pts).points.head? = some (Curve.mk s e b pts).start ∧
    (Curve.mk s e b pts).points.getLast? = some (Curve.mk s e b pts).end_ :=
  ⟨h1, h2⟩

/-- Embeds the `svg.path.CubicBezier` value consumed by `Curve.is_linear`:
four points `start`, `control1`, `control2`, `end`. -/
structure CubicBezier where
  start : Pt
  control1 : Pt
  control2 : Pt
  end_ : Pt
deriving DecidableEq

/-- Embeds Python `math.isclose(a, b, rel_tol=0.01)` (with the default
`abs_tol=0.0`): `|a - b| <= max(rel_tol * max(|a|, |b|), abs_tol)`. -/
def isclose (a b : ℚ) : Bool :=
  decide (|a - b| ≤ 1 / 100 * max |a| |b|)

/-- Embeds `_line` (`mx/Curve.py`): returns `None` when the denominator
`end.real - start.real` is zero, otherwise the affine map
`x ↦ m*x + b` with `m = (end.imag - start.imag)/denom`,
`b = start.imag - m*start.real`. -/
def _line (s e : Pt) : Option (ℚ → ℚ) :=
  if e.1 - s.1 = 0 then none
  else
    let m := (e.2 - s.2) / (e.1 - s.1)
    let b := s.2 - m * s.1
    some (fun x => m * x + b)

/-- The affine map produced by `_line` in its non-`None` case, named so that
theorem statements can refer to "the y of the line through start and end". -/
def lineY (s e : Pt) (x : ℚ) : ℚ :=
  ((e.2 - s.2) / (e.1 - s.1)) * x + (s.2 - ((e.2 - s.2) / (e.1 - s.1)) * s.1)

/-- Embeds `_rotate_bezier` (`mx/Curve.py`): swaps real and imaginary parts
of all four components. -/
def _rotate_bezier (cb : CubicBezier) : CubicBezier :=
  CubicBezier.mk (cb.start.2, cb.start.1) (cb.control1.2, cb.control1.1)
    (cb.control2.2, cb.control2.1) (cb.end_.2, cb.end_.1)

theorem _line_eq_none (s e : Pt) (h : e.1 - s.1 = 0) : _line s e = none := by
  simp [_line, h]

theorem _line_eq_some (s e : Pt) (h : e.1 - s.1 ≠ 0) :
    _line s e = some (lineY s e) := by
  simp only [_line, if_neg h]
  rfl

/-- Embeds `Curve.is_linear` (`mx/Curve.py`): `False` on a degenerate curve,
recursion through a 90° rotation when the line through the endpoints is
vertical, otherwise the two `math.isclose` checks on the control points.
Well-founded: the measure drops from 1 to 0 at the single possible
rotation. -/
def Curve.is_linear (cb : CubicBezier) : Bool :=
  if _h1 : cb.start = cb.end_ then false
  else
    match _h2 : _line cb.start cb.end_ with
    | none => Curve.is_linear (_rotate_bezier cb)
    | some y =>
      isclose (y cb.control1.1) cb.control1.2 &&
        isclose (y cb.control2.1) cb.control2.2
termination_by (if cb.start.1 = cb.end_.1 then 1 else 0)
decreasing_by
  simp_wf
  have hx : cb.start.1 = cb.end_.1 := by
    by_contra hx
    rw [_line_eq_some cb.start cb.end_
      (fun hc => hx (by linarith [sub_eq_zero.mp hc]))] at _h2
    exact Option.noConfusion _h2
  have hy : cb.start.2 ≠ cb.end_.2 := by
    intro hy
    exact _h1 (Prod.ext hx hy)
  simp [_rotate_bezier, hx, hy]

/-- Fuel-indexed variant of `Curve.is_linear`, with `none` meaning the
recursion depth exceeded the fuel.  Used to state that the rotate-and-recurse
branch is taken at most once. -/
def is_linearF : Nat → CubicBezier → Option Bool
  | 0, _ => none
  | Nat.succ n, cb =>
    if cb.start = cb.end_ then some false
    else
      match _line cb.start cb.end_ with
      | none => is_linearF n (_rotate_bezier cb)
      | some y =>
        some (isclose (y cb.control1.1) cb.control1.2 &&
          isclose (y cb.control2.1) cb.control2.2)

theorem is_linear_core (cb : CubicBezier) (h1 : ¬cb.start = cb.end_)
    (h2 : cb.end_.1 - cb.start.1 ≠ 0) :
    Curve.is_linear cb =
      (isclose (lineY cb.start cb.end_ cb.control1.1) cb.control1.2 &&
        isclose (lineY cb.start cb.end_ cb.control2.1) cb.control2.2) := by
  rw [Curve.is_linear]
  rw [_line_eq_some cb.start cb.end_ h2]
  simp [h1]

/-- Claim C3 (confirmed): `is_linear` returns `false` whenever
`start = end`; and whenever `start` and `end` have distinct x-coordinates it
returns `true` exactly when, for each of the two control points, the y of the
line through `start` and `end` evaluated at the control point's x is within
1% relative tolerance (`math.isclose`, `rel_tol=0.01`) of the control point's
actual y. -/
theorem C3_is_linear_classification (cb : CubicBezier) :
    (cb.start = cb.end_ → Curve.is_linear cb = false) ∧
    (cb.start.1 ≠ cb.end_.1 →
      (Curve.is_linear cb = true ↔
        isclose (lineY cb.start cb.end_ cb.control1.1) cb.control1.2 = true ∧
        isclose (lineY cb.start cb.end_ cb.control2.1) cb.control2.2 = true)) := by
  constructor
  · intro h
    rw [Curve.is_linear]
    simp [h]
  · intro hx
    have h1 : ¬cb.start = cb.end_ := fun hc => hx (congrArg Prod.fst hc)
    have h2 : cb.end_.1 - cb.start.1 ≠ 0 := sub_ne_zero.mpr (Ne.symm hx)
    rw [is_linear_core cb h1 h2]
    exact Bool.and_eq_true_iff

/-- Claim C3, witness: a degenerate curve classifies as not linear, and on a
curve with `start = (0,0)`, `end = (4,4)` the classification is exactly the
two tolerance checks. -/
theorem C3_is_linear_classification_witness :
    (Curve.is_linear (CubicBezier.mk (0,0) (1,1) (1,1) (0,0)) = false) ∧
    (Curve.is_linear (CubicBezier.mk (0,0) (1,1) (3,3) (4,4)) = true ↔
      isclose (lineY (0,0) (4,4) 1) 1 = true ∧
      isclose (lineY (0,0) (4,4) 3) 3 = true) :=
  ⟨(C3_is_linear_classification (CubicBezier.mk (0,0) (1,1) (1,1) (0,0))).1 rfl,
   (C3_is_linear_classification (CubicBezier.mk (0,0) (1,1) (3,3) (4,4))).2
     (by norm_num)⟩

/-- Claim C4 (confirmed): `is_linear` terminates with the rotate-and-recurse
branch entered at most once — fuel 2 always suffices and agrees with the
total function — because after a rotation the start and end x-coordinates
differ whenever `start ≠ end` and the x-coordinates were equal. -/
theorem C4_is_linear_termination :
    (∀ cb : CubicBezier, is_linearF 2 cb = some (Curve.is_linear cb)) ∧
    (∀ cb : CubicBezier, cb.start ≠ cb.end_ → cb.start.1 = cb.end_.1 →
      (_rotate_bezier cb).start.1 ≠ (_rotate_bezier cb).end_.1) := by
  constructor
  · intro cb
    by_cases he : cb.start = cb.end_
    · rw [Curve.is_linear]
      simp [is_linearF, he]
    · by_cases hx : cb.start.1 = cb.end_.1
      · have hz : cb.end_.1 - cb.start.1 = 0 := by rw [hx, sub_self]
        have hy : cb.start.2 ≠ cb.end_.2 := by
          intro hy
          exact he (Prod.ext hx hy)
        have hne : (_rotate_bezier cb).start ≠ (_rotate_bezier cb).end_ := by
          intro hc
          exact hy (congrArg Prod.fst hc)
        have hz' : (_rotate_bezier cb).end_.1 - (_rotate_bezier cb).start.1 ≠ 0 := by
          simp only [_rotate_bezier]
          exact sub_ne_zero.mpr (Ne.symm hy)
        have hrot : Curve.is_linear cb = Curve.is_linear (_rotate_bezier cb) := by
          rw [Curve.is_linear]
          rw [_line_eq_none cb.start cb.end_ hz]
          simp [he]
        rw [hrot, is_linear_core (_rotate_bezier cb) hne hz']
        simp only [is_linearF, if_neg he, _line_eq_none cb.start cb.end_ hz,
          if_neg hne, _line_eq_some _ _ hz']
      · have h2 : cb.end_.1 - cb.start.1 ≠ 0 := sub_ne_zero.mpr (Ne.symm hx)
        rw [is_linear_core cb he h2]
        simp only [is_linearF, if_neg he, _line_eq_some _ _ h2]
  · intro cb h1 hx hy
    apply h1
    apply Prod.ext hx
    simpa [_rotate_bezier] using hy

/-- Claim C4, witness: on the vertical-endpoint curve with
`start = (0,0)`, `end = (0,5)` the fuel-2 computation completes and agrees,
and the rotated curve has distinct endpoint x-coordinates. -/
theorem C4_is_linear_termination_witness :
    (is_linearF 2 (CubicBezier.mk (0,0) (1,1) (2,2) (0,5)) =
      some (Curve.is_linear (CubicBezier.mk (0,0) (1,1) (2,2) (0,5)))) ∧
    ((_rotate_bezier (CubicBezier.mk (0,0) (1,1) (2,2) (0,5))).start.1 ≠
      (_rotate_bezier (CubicBezier.mk (0,0) (1,1) (2,2) (0,5))).end_.1) :=
  ⟨C4_is_linear_termination.1 (CubicBezier.mk (0,0) (1,1) (2,2) (0,5)),
   C4_is_linear_termination.2 (CubicBezier.mk (0,0) (1,1) (2,2) (0,5))
     (by norm_num [Prod.ext_iff]) rfl⟩

/-- Embeds Python `str.replace("--", "->")` on `Str`: left-to-right,
non-overlapping replacement, exactly CPython's semantics for this pattern. -/
def replaceDashDash : Str → Str
  | [] => []
  | [c] => [c]
  | c1 :: c2 :: rest =>
    if c1 = '-' ∧ c2 = '-' then '-' :: '>' :: replaceDashDash rest
    else c1 :: replaceDashDash (c2 :: rest)

/-- Embeds Python `str.split("->")` on `Str`: left-to-right scan for the
separator, producing the list of chunks (`"".split("->") == [""]`). -/
def splitArrow : Str → List Str
  | [] => [[]]
  | [c] => [[c]]
  | c1 :: c2 :: rest =>
    if c1 = '-' ∧ c2 = '>' then [] :: splitArrow rest
    else
      match splitArrow (c2 :: rest) with
      | [] => [[c1]]
      | h :: t => (c1 :: h) :: t

/-- Embeds Python `str.split(":")` on `Str`. -/
def splitColon : Str → List Str
  | [] => [[]]
  | c :: rest =>
    if c = ':' then [] :: splitColon rest
    else
      match splitColon rest with
      | [] => [[c]]
      | h :: t => (c :: h) :: t

/-- Embeds `xml.etree.ElementTree.Element` as far as the code under
verification uses it: a tag, an attribute dictionary, optional text, and the
list of direct children (in document order). -/
inductive Element where
  | mk (tag : Str) (attrib : List (Str × Str)) (text : Option Str)
      (children : List Element)

def Element.tag : Element → Str
  | .mk t _ _ _ => t

def Element.attrib : Element → List (Str × Str)
  | .mk _ a _ _ => a

def Element.text : Element → Option Str
  | .mk _ _ x _ => x

def Element.children : Element → List Element
  | .mk _ _ _ c => c

/-- Python `dict` subscript access modelled on an ordered association list:
`some v` when the key is present, `none` for a missing key (`KeyError` /
failed `in` test at the call sites). -/
def dictGet {α : Type} : List (Str × α) → Str → Option α
  | [], _ => none
  | e :: rest, k => if e.1 = k then some e.2 else dictGet rest k

/-- Embeds `NS_SVG` (`models/SVG.py`), the SVG namespace prefix used in
qualified tag names. -/
def NS_SVG : Str := "\x7bhttp://www.w3.org/2000/svg\x7d".toList

/-- Embeds `svg_tag` (`models/SVG.py`). -/
def svg_tag (tag : Str) : Str := NS_SVG ++ tag

/-- Embeds `get_first` (`models/SVG.py`): `g.find(f"./{NS_SVG}{tag}")`, the
first direct child with the qualified tag, or `None`. -/
def SVG.get_first (g : Element) (tag : Str) : Option Element :=
  g.children.find? (fun c => c.tag = svg_tag tag)

/-- Embeds `get_title` (`models/SVG.py`): the text of the first `title`
child when that child exists, otherwise `None`.  (An empty `<title/>` element
has `text = None` in ElementTree, so this can also return `none` when a title
child exists but carries no text.) -/
def SVG.get_title (g : Element) : Option Str :=
  match SVG.get_first g ("title".toList) with
  | some title_el => title_el.text
  | none => none

/-- Embeds `is_tag` (`models/SVG.py`). -/
def SVG.is_tag (g : Element) (tag : Str) : Bool :=
  g.tag = svg_tag tag

/-- Modelled from the spec: the `Edge` value type (§3) — the `Edge` class
itself is an external collaborator of the specified core: source element id
`sid`, endpoint ids `fr`/`to` (`to` is a Lean keyword, hence `to_`), optional
curve, ordered label list. -/
structure Edge where
  sid : Str
  fr : Str
  to_ : Str
  curve : Option Curve
  labels : List Str

/-- Modelled from the spec: the `Text` collaborator's `from_svg`, which
extracts a label's text content from a `text` element (§4.2 step 4).  Only
its arity matters to the claims below, none of which inspect labels. -/
def Text.from_svg (el : Element) : Str :=
  el.text.getD []

/-- The Python exceptions `EdgeFactory.from_svg` can raise.
`missingTitle` models `MissingTitleError(g)` — modelled from the spec
(§7: a missing-title error "carrying a reference to the offending element");
the class body lives outside the specified core.  `valueError` models the
`ValueError` CPython raises when unpacking `fr, to = ...` from a list whose
length is not 2; `keyError` models `g.attrib["id"]` on a missing key. -/
inductive PyErr where
  | missingTitle (g : Element)
  | valueError
  | keyError (k : Str)

/-- Embeds the `EdgeFactory` object: its only state is the curve-parsing
collaborator built in `__init__`.  `CurveFactory.from_svg` is external to the
specified core (spec §1) and is modelled from the spec as an opaque-to-us
function parameter returning the optional curve for a path `d` string. -/
structure EdgeFactory where
  curve_factory : Str → Option Curve

/-- Embeds `EdgeFactory.from_svg` (`mx/EdgeFactory.py`) line by line:
read the title (raise `MissingTitleError(g)` when `None`); normalise `--` to
`->` and split, unpacking into exactly two tokens (else `ValueError`); strip
each token at its first colon; collect the text children as labels; parse the
first path child's `d` attribute, when present, into the optional curve; and
build the `Edge` from `g.attrib["id"]` (raising `KeyError` when absent). -/
def EdgeFactory.from_svg (ef : EdgeFactory) (g : Element) : Except PyErr Edge :=
  match SVG.get_title g with
  | none => Except.error (PyErr.missingTitle g)
  | some title =>
    match splitArrow (replaceDashDash title) with
    | [fr0, to0] =>
      let fr := (splitColon fr0).headD []
      let to_ := (splitColon to0).headD []
      let labels :=
        (g.children.filter (fun tag => SVG.is_tag tag ("text".toList))).map
          Text.from_svg
      let curve : Option Curve :=
        match SVG.get_first g ("path".toList) with
        | some path =>
          match dictGet path.attrib ("d".toList) with
          | some d => ef.curve_factory d
          | none => none
        | none => none
      match dictGet g.attrib ("id".toList) with
      | some sid => Except.ok (Edge.mk sid fr to_ curve labels)
      | none => Except.error (PyErr.keyError ("id".toList))
    | _ => Except.error PyErr.valueError

/-- A factory whose curve-parsing collaborator yields no curve; used as the
concrete factory in witnesses.  The claims below hold for every factory. -/
def ef0 : EdgeFactory := EdgeFactory.mk (fun _ => none)

/-- A group element with an id but no title child. -/
def gNoTitle : Element :=
  Element.mk ("g".toList) [("id".toList, "e1".toList)] none []

/-- A title child element with the given text. -/
def titleEl (s : Str) : Element :=
  Element.mk (svg_tag ("title".toList)) [] (some s) []

/-- A group element with an id and a title child carrying text `s`. -/
def gWith (s : Str) : Element :=
  Element.mk ("g".toList) [("id".toList, "e1".toList)] none [titleEl s]

/-- Claim C5 (confirmed): a group with no `title` child makes
`EdgeFactory.from_svg` fail with the missing-title error carrying that very
group (so no `Edge` is constructed), and whenever the group does have a title
(title text is present) the result is never a missing-title error, for any
curve-parsing collaborator. -/
theorem C5_missing_title (ef : EdgeFactory) (g : Element) :
    (SVG.get_first g ("title".toList) = none →
      ef.from_svg g = Except.error (PyErr.missingTitle g)) ∧
    (∀ t : Str, SVG.get_title g = some t →
      ∀ g' : Element, ef.from_svg g ≠ Except.error (PyErr.missingTitle g')) := by
  constructor
  · intro h
    simp only [EdgeFactory.from_svg, SVG.get_title, h]
  · intro t ht g'
    simp only [EdgeFactory.from_svg, ht]
    cases hs : splitArrow (replaceDashDash t) with
    | nil => simp
    | cons a tl =>
      cases tl with
      | nil => simp
      | cons b tl2 =>
        cases tl2 with
        | nil =>
          cases hid : dictGet g.attrib ("id".toList) with
          | none => simp
          | some sid => simp
        | cons c rest => simp

/-- Claim C5, witness: the title-less group errors with itself as payload,
and a group titled `"A->B"` does not raise the missing-title error. -/
theorem C5_missing_title_witness :
    (ef0.from_svg gNoTitle = Except.error (PyErr.missingTitle gNoTitle)) ∧
    (ef0.from_svg (gWith ("A->B".toList)) ≠
      Except.error (PyErr.missingTitle (gWith ("A->B".toList)))) :=
  ⟨(C5_missing_title ef0 gNoTitle).1 rfl,
   (C5_missing_title ef0 (gWith ("A->B".toList))).2 ("A->B".toList) rfl
     (gWith ("A->B".toList))⟩

/-- Claim C7 (confirmed): when the title does not split into exactly two
tokens after `--` → `->` normalisation, `from_svg` fails fast with the
unpacking `ValueError` instead of truncating the token list and returning an
`Edge`. -/
theorem C7_malformed_title (ef : EdgeFactory) (g : Element) (t : Str)
    (ht : SVG.get_title g = some t)
    (hl : (splitArrow (replaceDashDash t)).length ≠ 2) :
    ef.from_svg g = Except.error PyErr.valueError := by
  simp only [EdgeFactory.from_svg, ht]
  cases hs : splitArrow (replaceDashDash t) with
  | nil => simp
  | cons a tl =>
    cases tl with
    | nil => simp
    | cons b tl2 =>
      cases tl2 with
      | nil =>
        rw [hs] at hl
        simp at hl
      | cons c rest => simp

/-- Claim C7, witness: a title with no separator at all. -/
theorem C7_malformed_title_witness :
    ef0.from_svg (gWith ("AB".toList)) = Except.error PyErr.valueError :=
  C7_malformed_title ef0 (gWith ("AB".toList)) ("AB".toList) rfl (by decide)

/-- Claim C6, counterexample to the claim as stated: on the title
`"A:west -- B:east"` the code produces `fr = "A"` but `to = " B"` — the
leading space of the second token survives, because `from_svg` strips port
suffixes but never strips whitespace — so the claimed `to == "B"` is false. -/
theorem C6_separator_counterexample :
    (ef0.from_svg (gWith ("A:west -- B:east".toList))).map
        (fun e => (e.fr, e.to_)) =
      Except.ok ("A".toList, " B".toList) ∧ (" B".toList ≠ "B".toList) :=
  ⟨rfl, by decide⟩

/-- Claim C6, amended: `from_svg` treats `--` as `->` and keeps each
endpoint token's prefix before its first colon, but does not trim whitespace:
for every factory and every group titled `"A:west -- B:east"` (with an id),
the resulting edge has `fr = "A"` and `to = " B"` (with the space); the
space-free title `"A:west--B:east"` would yield `fr = "A"`, `to = "B"`. -/
theorem C6_separator_amended (ef : EdgeFactory) (g : Element) (sid : Str)
    (ht : SVG.get_title g = some ("A:west -- B:east".toList))
    (hid : dictGet g.attrib ("id".toList) = some sid) :
    (ef.from_svg g).map (fun e => (e.fr, e.to_)) =
      Except.ok ("A".toList, " B".toList) := by
  simp only [EdgeFactory.from_svg, ht]
  have hs : splitArrow (replaceDashDash ("A:west -- B:east".toList)) =
      ["A:west ".toList, " B:east".toList] := by decide
  rw [hs]
  simp only [hid]
  simp [Except.map]
  exact ⟨by decide, by decide⟩

/-- Claim C6 amended, witness at the concrete group. -/
theorem C6_separator_amended_witness :
    (ef0.from_svg (gWith ("A:west -- B:east".toList))).map
        (fun e => (e.fr, e.to_)) =
      Except.ok ("A".toList, " B".toList) :=
  C6_separator_amended ef0 (gWith ("A:west -- B:east".toList)) ("e1".toList)
    rfl rfl

theorem splitColon_append (a r : Str) (h : ':' ∉ a) :
    splitColon (a ++ ':' :: r) = a :: splitColon r := by
  induction a with
  | nil => simp [splitColon]
  | cons c a ih =>
    have hc : ¬(c = ':') := by
      intro hc
      exact h (hc ▸ List.mem_cons_self c a)
    have ha : ':' ∉ a := fun hm => h (List.mem_cons_of_mem c hm)
    rw [List.cons_append, splitColon]
    simp [hc, ih ha]

/-- Claim C10 (confirmed): when an endpoint token contains more than one
colon — token `= a ++ ":" ++ r1 ++ ":" ++ r2` with no colon in `a` —
`from_svg` keeps exactly `a`, the prefix before the *first* colon, as the
node identifier. -/
theorem C10_first_colon (ef : EdgeFactory) (g : Element)
    (t sid a r1 r2 tok2 : Str)
    (ht : SVG.get_title g = some t)
    (hs : splitArrow (replaceDashDash t) = [a ++ ':' :: (r1 ++ ':' :: r2), tok2])
    (ha : ':' ∉ a)
    (hid : dictGet g.attrib ("id".toList) = some sid) :
    (ef.from_svg g).map Edge.fr = Except.ok a := by
  simp only [EdgeFactory.from_svg, ht, hs]
  simp only [hid]
  simp [Except.map, splitColon_append a (r1 ++ ':' :: r2) ha]

/-- Claim C10, witness: the token `"A:p:c"` yields node id `"A"` — the
prefix before the first colon, not `"A:p"`, the prefix before the last. -/
theorem C10_first_colon_witness :
    ((ef0.from_svg (gWith ("A:p:c->B".toList))).map Edge.fr =
      Except.ok ("A".toList)) ∧ ("A".toList ≠ "A:p".toList) :=
  ⟨C10_first_colon ef0 (gWith ("A:p:c->B".toList)) ("A:p:c->B".toList)
      ("e1".toList) ("A".toList) ("p".toList) ("c".toList) ("B".toList)
      rfl (by decide) (by decide) rfl,
   by decide⟩

/-- Claim C9 amended, witness at a concrete input. -/
theorem C9_invariant_amended_witness :
    (Curve.mk (0,0) (3,3) true [(0,0),(1,1),(2,2),(3,3)]).points.head? =
      some (Curve.mk (0,0) (3,3) true [(0,0),(1,1),(2,2),(3,3)]).start ∧
    (Curve.mk (0,0) (3,3) true [(0,0),(1,1),(2,2),(3,3)]).points.getLast? =
      some (Curve.mk (0,0) (3,3) true [(0,0),(1,1),(2,2),(3,3)]).end_ :=
  C9_invariant_amended (0,0) (3,3) true [(0,0),(1,1),(2,2),(3,3)] rfl rfl

/-- The `__dict__` of a `GraphObj`: an insertion-ordered mapping from
attribute name to a Python value that may itself be `None` (`Option α`
distinguishes an attribute bound to `None` from an absent attribute). -/
abbrev Dict (α : Type) : Type := List (Str × Option α)

/-- Python `dict` assignment `d[k] = v`: replaces the first binding of `k`
in place, or appends a new binding — modelling the `__setattr__` call in
`GraphObj.enrich_from_graph`. -/
def dictSet {α : Type} : Dict α → Str → Option α → Dict α
  | [], k, v => [(k, v)]
  | e :: rest, k, v => if e.1 = k then (k, v) :: rest else e :: dictSet rest k v

/-- Embeds `GraphObj.enrich_from_graph` (`mx/GraphObj.py`): for each `(k, v)`
pair in order, skip when `k in self.__dict__ and self.__dict__[k] is not
None` (i.e. the lookup yields `some (some _)`), otherwise `setattr(k, v)`. -/
def GraphObj.enrich_from_graph {α : Type} :
    Dict α → List (Str × Option α) → Dict α
  | d, [] => d
  | d, (k, v) :: rest =>
    match dictGet d k with
    | some (some _) => GraphObj.enrich_from_graph d rest
    | _ => GraphObj.enrich_from_graph (dictSet d k v) rest

/-- The binding that one enrichment pass leaves for key `k` when the entity
does not already own `k` with a non-`None` value: the first non-`None` value
listed for `k` when one exists, a `None` binding when `k` is listed only with
`None` values, and no binding otherwise. -/
def firstHit {α : Type} : List (Str × Option α) → Str → Option (Option α)
  | [], _ => none
  | (k', v) :: rest, k =>
    if k' = k then
      match v with
      | some w => some (some w)
      | none =>
        match firstHit rest k with
        | some r => some r
        | none => some none
    else firstHit rest k

theorem dictGet_dictSet {α : Type} (d : Dict α) (k j : Str) (v : Option α) :
    dictGet (dictSet d k v) j = if j = k then some v else dictGet d j := by
  induction d with
  | nil =>
    by_cases h : j = k
    · simp [dictSet, dictGet, h]
    · simp [dictSet, dictGet, h, Ne.symm h]
  | cons e rest ih =>
    by_cases he : e.1 = k
    · by_cases hj : j = k
      · simp [dictSet, dictGet, he, hj]
      · have hej : ¬(e.1 = j) := fun hc => hj (he ▸ hc ▸ rfl)
        simp [dictSet, dictGet, he, hj, Ne.symm hj, hej]
    · by_cases hj : e.1 = j
      · have : ¬(j = k) := fun hc => he (hj ▸ hc ▸ rfl)
        simp [dictSet, dictGet, he, hj, this]
      · simp [dictSet, dictGet, he, hj, ih]

/-- Lookup after one enrichment pass: an already-owned non-`None` value
always survives; otherwise `firstHit` of the attribute list decides. -/
theorem enrich_lookup {α : Type} (attrs : List (Str × Option α)) (d : Dict α)
    (k : Str) :
    dictGet (GraphObj.enrich_from_graph d attrs) k =
      match dictGet d k with
      | some (some v) => some (some v)
      | _ =>
        match firstHit attrs k with
        | some b => some b
        | none => dictGet d k := by
  induction attrs generalizing d with
  | nil =>
    rcases h : dictGet d k with _ | ⟨_ | w⟩ <;>
      simp [GraphObj.enrich_from_graph, firstHit, h]
  | cons e rest ih =>
    rcases e with ⟨k', v⟩
    rcases hk' : dictGet d k' with _ | ⟨_ | w⟩
    · by_cases hkk : k' = k
      · subst hkk
        rw [show GraphObj.enrich_from_graph d ((k', v) :: rest) =
            GraphObj.enrich_from_graph (dictSet d k' v) rest by
          simp [GraphObj.enrich_from_graph, hk']]
        rw [ih]
        have hd' : dictGet (dictSet d k' v) k' = some v := by
          simp [dictGet_dictSet]
        rcases v with _ | w
        · simp [hd', hk', firstHit]
          rcases hfh : firstHit rest k' with _ | b <;> simp
        · simp [hd', hk', firstHit]
      · rw [show GraphObj.enrich_from_graph d ((k', v) :: rest) =
            GraphObj.enrich_from_graph (dictSet d k' v) rest by
          simp [GraphObj.enrich_from_graph, hk']]
        rw [ih]
        have hd' : dictGet (dictSet d k' v) k = dictGet d k := by
          rw [dictGet_dictSet]
          simp [Ne.symm hkk]
        rw [hd']
        have hfh : firstHit ((k', v) :: rest) k = firstHit rest k := by
          simp [firstHit, hkk]
        rw [hfh]
    · by_cases hkk : k' = k
      · subst hkk
        rw [show GraphObj.enrich_from_graph d ((k', v) :: rest) =
            GraphObj.enrich_from_graph (dictSet d k' v) rest by
          simp [GraphObj.enrich_from_graph, hk']]
        rw [ih]
        have hd' : dictGet (dictSet d k' v) k' = some v := by
          simp [dictGet_dictSet]
        rcases v with _ | w
        · simp [hd', hk', firstHit]
          rcases hfh : firstHit rest k' with _ | b <;> simp
        · simp [hd', hk', firstHit]
      · rw [show GraphObj.enrich_from_graph d ((k', v) :: rest) =
            GraphObj.enrich_from_graph (dictSet d k' v) rest by
          simp [GraphObj.enrich_from_graph, hk']]
        rw [ih]
        have hd' : dictGet (dictSet d k' v) k = dictGet d k := by
          rw [dictGet_dictSet]
          simp [Ne.symm hkk]
        rw [hd']
        have hfh : firstHit ((k', v) :: rest) k = firstHit rest k := by
          simp [firstHit, hkk]
        rw [hfh]
    · rw [show GraphObj.enrich_from_graph d ((k', v) :: rest) =
          GraphObj.enrich_from_graph d rest by
        simp [GraphObj.enrich_from_graph, hk']]
      rw [ih]
      by_cases hkk : k' = k
      · subst hkk
        simp [hk']
      · have hfh : firstHit ((k', v) :: rest) k = firstHit rest k := by
          simp [firstHit, hkk]
        rw [hfh]

theorem enrich_preserves {α : Type} (d : Dict α) (attrs : List (Str × Option α))
    (k : Str) (v : α) (h : dictGet d k = some (some v)) :
    dictGet (GraphObj.enrich_from_graph d attrs) k = some (some v) := by
  rw [enrich_lookup, h]

theorem enrich_idem {α : Type} (d : Dict α) (attrs : List (Str × Option α))
    (k : Str) :
    dictGet (GraphObj.enrich_from_graph
        (GraphObj.enrich_from_graph d attrs) attrs) k =
      dictGet (GraphObj.enrich_from_graph d attrs) k := by
  rw [enrich_lookup attrs (GraphObj.enrich_from_graph d attrs) k]
  rcases h1 : dictGet (GraphObj.enrich_from_graph d attrs) k with _ | ⟨_ | w⟩
  · rw [enrich_lookup] at h1
    rcases hf : firstHit attrs k with _ | b
    · simp
    · rcases hd : dictGet d k with _ | ⟨_ | w⟩ <;>
        simp [hd, hf] at h1
  · rw [enrich_lookup] at h1
    rcases hf : firstHit attrs k with _ | ⟨_ | w⟩
    · simp
    · simp
    · rcases hd : dictGet d k with _ | ⟨_ | u⟩ <;>
        simp [hd, hf] at h1
  · simp

theorem firstHit_filter {α : Type} (attrs : List (Str × Option α)) (k : Str) :
    firstHit attrs k = firstHit (attrs.filter (fun e => e.1 = k)) k := by
  induction attrs with
  | nil => rfl
  | cons e rest ih =>
    rcases e with ⟨k', v⟩
    by_cases hkk : k' = k
    · subst hkk
      rcases v with _ | w
      · simp [List.filter_cons, firstHit, ih]
      · simp [List.filter_cons, firstHit]
    · simp [List.filter_cons, firstHit, hkk, ih]

theorem nodup_filter_len {α : Type} (attrs : List (Str × Option α)) (k : Str)
    (h : (attrs.map Prod.fst).Nodup) :
    (attrs.filter (fun e => e.1 = k)).length ≤ 1 := by
  induction attrs with
  | nil => simp
  | cons e rest ih =>
    rw [List.map_cons, List.nodup_cons] at h
    by_cases hkk : e.1 = k
    · have hnil : rest.filter (fun e => e.1 = k) = [] := by
        rw [List.filter_eq_nil_iff]
        intro e' he'
        simp only [decide_eq_true_eq]
        intro hek
        exact h.1 (List.mem_map.mpr ⟨e', he', by rw [hek, hkk]⟩)
      simp [List.filter_cons, hkk, hnil]
    · simp only [List.filter_cons, hkk, decide_eq_true_eq, if_false]
      simpa [hkk] using ih h.2

theorem perm_eq_of_len_le_one {α : Type} {l1 l2 : List α} (h : l1.Perm l2)
    (hl : l1.length ≤ 1) : l1 = l2 := by
  match l1, hl with
  | [], _ => exact (List.perm_nil.mp h.symm).symm
  | [a], _ => exact (List.perm_singleton.mp h.symm).symm

theorem firstHit_perm {α : Type} (a1 a2 : List (Str × Option α)) (k : Str)
    (hp : a1.Perm a2) (hn : (a1.map Prod.fst).Nodup) :
    firstHit a1 k = firstHit a2 k := by
  rw [firstHit_filter a1 k, firstHit_filter a2 k,
    perm_eq_of_len_le_one (hp.filter (fun e => e.1 = k))
      (nodup_filter_len a1 k hn)]

theorem enrich_perm {α : Type} (d : Dict α) (a1 a2 : List (Str × Option α))
    (k : Str) (hp : a1.Perm a2) (hn : (a1.map Prod.fst).Nodup) :
    dictGet (GraphObj.enrich_from_graph d a1) k =
      dictGet (GraphObj.enrich_from_graph d a2) k := by
  rw [enrich_lookup, enrich_lookup, firstHit_perm a1 a2 k hp hn]

/-- Embeds `GraphObj.__init__` (`mx/GraphObj.py`): the fresh `__dict__` holds
exactly the bindings of `sid` and `gid`. -/
def GraphObj.initDict {α : Type} (sid gid : Option α) : Dict α :=
  [("sid".toList, sid), ("gid".toList, gid)]

/-- The spec's example entity: a `GraphObj` that already owns
`color = "red"`. -/
def exEntity : Dict Str :=
  dictSet (GraphObj.initDict (some ("n1".toList)) (some ("g1".toList)))
    ("color".toList) (some ("red".toList))

/-- The spec's example graph defaults `[("color","blue"), ("shape","box")]`. -/
def exAttrs : List (Str × Option Str) :=
  [("color".toList, some ("blue".toList)), ("shape".toList, some ("box".toList))]

/-- The example defaults in the opposite key order. -/
def exAttrsRev : List (Str × Option Str) :=
  [("shape".toList, some ("box".toList)), ("color".toList, some ("blue".toList))]

/-- Claim C8 (confirmed): `enrich_from_graph` (1) never changes an attribute
already bound to a non-null value — first explicit value wins; (2) applying
it twice with the same sequence yields the same final attribute state
(observed through lookups) as applying it once; (3) applying the keys in any
order — any permutation of an attribute sequence with pairwise-distinct
keys — yields the same state; and (4) the entity owning `color = "red"`
enriched with `[("color","blue"), ("shape","box")]` ends with
`color = "red"` and `shape = "box"`. -/
theorem C8_enrich_inheritance :
    (∀ (α : Type) (d : Dict α) (attrs : List (Str × Option α)) (k : Str) (v : α),
      dictGet d k = some (some v) →
      dictGet (GraphObj.enrich_from_graph d attrs) k = some (some v)) ∧
    (∀ (α : Type) (d : Dict α) (attrs : List (Str × Option α)) (k : Str),
      dictGet (GraphObj.enrich_from_graph
          (GraphObj.enrich_from_graph d attrs) attrs) k =
        dictGet (GraphObj.enrich_from_graph d attrs) k) ∧
    (∀ (α : Type) (d : Dict α) (a1 a2 : List (Str × Option α)) (k : Str),
      a1.Perm a2 → (a1.map Prod.fst).Nodup →
      dictGet (GraphObj.enrich_from_graph d a1) k =
        dictGet (GraphObj.enrich_from_graph d a2) k) ∧
    (dictGet (GraphObj.enrich_from_graph exEntity exAttrs) ("color".toList) =
        some (some ("red".toList)) ∧
      dictGet (GraphObj.enrich_from_graph exEntity exAttrs) ("shape".toList) =
        some (some ("box".toList))) :=
  ⟨fun _ d attrs k v h => enrich_preserves d attrs k v h,
   fun _ d attrs k => enrich_idem d attrs k,
   fun _ d a1 a2 k hp hn => enrich_perm d a1 a2 k hp hn,
   by decide, by decide⟩

/-- Claim C8, witness: on the concrete example entity, the owned `color`
survives enrichment, and enriching with the two defaults in either order
gives the same `color`. -/
theorem C8_enrich_inheritance_witness :
    (dictGet (GraphObj.enrich_from_graph exEntity exAttrs) ("color".toList) =
      some (some ("red".toList))) ∧
    (dictGet (GraphObj.enrich_from_graph exEntity exAttrs) ("color".toList) =
      dictGet (GraphObj.enrich_from_graph exEntity exAttrsRev) ("color".toList)) :=
  ⟨C8_enrich_inheritance.1 Str exEntity exAttrs ("color".toList) ("red".toList)
      (by decide),
   C8_enrich_inheritance.2.2.1 Str exEntity exAttrs exAttrsRev ("color".toList)
      (by decide) (by decide)⟩
